import Mathlib

/-!
Verification development for the Updog social-networking application.

The repository ships a React frontend and an Express/Sequelize backend.
The backend route handlers themselves are not part of the checked-in
sources here (only their Jest test-suite `backend/__tests__/users.js` and
two frontend components are), so the handlers are modelled from the
specification (and the behaviour pinned down by the test-suite), while
the frontend `AuthProvider` component is embedded directly from its
source. External collaborators (bcrypt, JWT) are modelled abstractly, as
the spec declares them out of scope.
-/

set_option maxHeartbeats 1000000

namespace Updog

/-! ### JavaScript value model (for the frontend AuthProvider) -/

/-- A JavaScript primitive value as far as the `AuthProvider` component
distinguishes them: `undefined`, `null`, or a string. `localStorage.getItem`
returns `null` for a missing key, while a missing object property reads as
`undefined`; the component compares with strict equality (`===`). -/
inductive JSValue where
  | undefined
  | null
  | str (s : String)
  deriving DecidableEq, Repr

/-- The `user` state held by `AuthProvider`:
`useState({ token: ..., username: ... })`. -/
structure AuthUser where
  token : JSValue
  username : JSValue
  deriving DecidableEq, Repr

/-- Embeds `isAuthenticated: user.token === undefined` from
`AuthProvider`. -/
def isAuthenticated (user : AuthUser) : Bool :=
  user.token == JSValue.undefined

/-- Embeds the initial state
reading token and username via `localStorage.getItem`:
`getItem` yields the stored string or `null`. -/
def initialAuthState (storedToken storedUsername : Option String) : AuthUser :=
  { token := match storedToken with
      | some s => JSValue.str s
      | none => JSValue.null
    username := match storedUsername with
      | some s => JSValue.str s
      | none => JSValue.null }

/-- Embeds `login = ({ token, username }) => setUser({ token, username })`
for a login call carrying a defined token and username. -/
def login (token username : String) : AuthUser :=
  { token := JSValue.str token, username := JSValue.str username }

/-- Embeds `logout = () => setUser({})`: reading `token` or `username`
off the empty object yields `undefined`. -/
def logout : AuthUser :=
  { token := JSValue.undefined, username := JSValue.undefined }

/-! ### Password storage (modelled) -/

/-- Modelled from the spec: the password-hashing library (bcrypt) is an
out-of-scope external collaborator; the spec requires only that passwords
are "hashed at rest", that the stored value never equals the plaintext,
and that `validatePassword` compares a plaintext against the salted hash.
The model prefixes a bcrypt-style tag, which is injective and never the
identity. -/
def hashPassword (plaintext : String) : String :=
  "$2b$10$" ++ plaintext

/-- A user record, per the spec data model (`users` table). The stored
`password` field holds the hash. -/
structure User where
  id : Nat
  username : String
  nickname : String
  email : String
  password : String
  bio : String
  joinedDate : Nat
  deriving DecidableEq, Repr

/-- Modelled from the spec: `user.validatePassword(plaintext)` checks the
plaintext against the stored salted hash. -/
def validatePassword (u : User) (plaintext : String) : Bool :=
  u.password == hashPassword plaintext

/-- Modelled from the spec: signup stores the hash of the supplied
plaintext password, never the plaintext itself. -/
def createUser (id : Nat) (username email plaintext : String) : User :=
  { id := id
    username := username
    nickname := username
    email := email
    password := hashPassword plaintext
    bio := ""
    joinedDate := 0 }

theorem hashPassword_ne (p : String) : hashPassword p ≠ p := by
  intro h
  have hlen := congrArg String.length h
  rw [hashPassword, String.length_append] at hlen
  have h7 : ("$2b$10$" : String).length = 7 := rfl
  omega

theorem hashPassword_injective {p q : String} (h : hashPassword p = hashPassword q) :
    p = q := by
  have hdata := congrArg String.data h
  simp only [hashPassword, String.data_append] at hdata
  exact String.ext (List.append_cancel_left hdata)

/-! ### Data model (spec §3) -/

/-- A post record (`posts` table): `text_content`, `author` (user id),
optional `parent` (self-reference for replies), `createdAt` timestamp
(modelled as the parsed epoch value, a natural number). -/
structure Post where
  id : Nat
  author : Nat
  text_content : String
  parent : Option Nat
  createdAt : Nat
  deriving DecidableEq, Repr

/-- A follow edge (`followers` table): directed `(followerId, followedId)`
pair. -/
structure FollowEdge where
  followerId : Nat
  followedId : Nat
  deriving DecidableEq, Repr

/-- A like or share join record (`likedPost` / `sharedPost` tables):
`(userId, postId, createdAt)`. -/
structure Interaction where
  userId : Nat
  postId : Nat
  createdAt : Nat
  deriving DecidableEq, Repr

/-- The relational database state: the five tables the test-suite clears
in its `beforeEach`. -/
structure DB where
  users : List User
  posts : List Post
  followers : List FollowEdge
  likedPost : List Interaction
  sharedPost : List Interaction
  deriving DecidableEq, Repr

/-! ### Reverse-chronological ordering -/

/-- The ordering used for activity, feed and notification lists: an entry
comes first when its event timestamp is at least that of the other (latest
first). `ts` projects the event timestamp out of an entry. -/
def laterFirst {α : Type} (ts : α → Nat) (a b : α) : Prop :=
  ts b ≤ ts a

instance {α : Type} (ts : α → Nat) : DecidableRel (laterFirst ts) :=
  fun a b => Nat.decLe (ts b) (ts a)

instance {α : Type} (ts : α → Nat) : IsTotal α (laterFirst ts) :=
  ⟨fun a b => Nat.le_total (ts b) (ts a)⟩

instance {α : Type} (ts : α → Nat) : IsTrans α (laterFirst ts) :=
  ⟨fun _ _ _ hab hbc => Nat.le_trans hbc hab⟩

/-- Sort a list of timestamped entries latest-first. -/
def sortByTimestampDesc {α : Type} (ts : α → Nat) (l : List α) : List α :=
  List.insertionSort (laterFirst ts) l

theorem sortByTimestampDesc_sorted {α : Type} (ts : α → Nat) (l : List α) :
    List.Sorted (laterFirst ts) (sortByTimestampDesc ts l) :=
  List.sorted_insertionSort (laterFirst ts) l

theorem mem_sortByTimestampDesc {α : Type} (ts : α → Nat) (l : List α) (x : α) :
    x ∈ sortByTimestampDesc ts l ↔ x ∈ l :=
  List.mem_insertionSort (laterFirst ts)

/-! ### Authentication (modelled) -/

/-- Modelled from the spec: the JWT library is an out-of-scope external
collaborator. A token is a signed payload embedding the identity of the user;
the model keeps just the embedded identity. -/
structure Token where
  id : Nat
  deriving DecidableEq, Repr

/-- Modelled from the spec: `Authentication.generateAuthToken` issues a
signed token embedding the identity of the user. -/
def generateAuthToken (u : User) : Token :=
  ⟨u.id⟩

/-- Modelled from the spec: `Authentication.extractUser` decodes a valid
token back to the identity it embeds. -/
def extractUser (t : Token) : Nat :=
  t.id

/-- The `Authorization` header of a request: absent, present but not a
valid bearer token, or a valid bearer token. -/
inductive AuthHeader where
  | missing
  | malformed (raw : String)
  | bearer (t : Token)
  deriving DecidableEq, Repr

/-- Modelled from the spec: the auth middleware validates the bearer
token and resolves it to a user identity; a missing or invalid token
yields no identity. -/
def extractUserId : AuthHeader → Option Nat
  | AuthHeader.bearer t => some (extractUser t)
  | AuthHeader.missing => none
  | AuthHeader.malformed _ => none

/-- Modelled from the spec: protected routes run behind the auth
middleware; when the header carries no valid token the request is
rejected with status 400 before the handler runs, so the database state
is returned unchanged and no response body is produced. -/
def withAuth {ρ : Type} (handler : Nat → DB → Nat × Option ρ × DB)
    (hdr : AuthHeader) (db : DB) : Nat × Option ρ × DB :=
  match extractUserId hdr with
  | none => (400, none, db)
  | some uid => handler uid db

/-! ### Endpoint models -/

/-- Response shape of `POST /users/authenticate`. -/
structure LoginResponse where
  status : Nat
  error : Option String
  authToken : Option Token
  username : Option String
  deriving DecidableEq, Repr

/-- Modelled from the spec: the login handler behind
`POST /users/authenticate` looks the user up by email; an unknown email
or a failed password check both yield 401 with the identical generic
message, while a successful check yields 200, the handle of the user, and a
signed token embedding the identity of the user. -/
def authenticate (email password : String) (db : DB) : LoginResponse :=
  match db.users.find? (fun u => u.email == email) with
  | none => ⟨401, some "Incorrect email or password", none, none⟩
  | some u =>
    if validatePassword u password then
      ⟨200, none, some (generateAuthToken u), some u.username⟩
    else
      ⟨401, some "Incorrect email or password", none, none⟩

/-- Response shape of `POST|DELETE /users/:username/follow`, carrying the
resulting database state. -/
structure FollowResponse where
  status : Nat
  error : Option String
  followerId : Option Nat
  followedId : Option Nat
  db : DB
  deriving DecidableEq, Repr

/-- Modelled from the spec: `POST /users/:username/follow` resolves the
target by username (404 with `User <name> not found` when absent),
rejects a duplicate follow edge with 409 and `Already following this
user` leaving the state unchanged, and otherwise inserts the edge and
returns 201 with the endpoints of the edge. -/
def followUser (callerId : Nat) (username : String) (db : DB) : FollowResponse :=
  match db.users.find? (fun u => u.username == username) with
  | none => ⟨404, some ("User \x27" ++ username ++ "\x27 not found"), none, none, db⟩
  | some target =>
    if (⟨callerId, target.id⟩ : FollowEdge) ∈ db.followers then
      ⟨409, some "Already following this user", none, none, db⟩
    else
      ⟨201, none, some callerId, some target.id,
        { db with followers := db.followers ++ [⟨callerId, target.id⟩] }⟩

/-- Modelled from the spec: `DELETE /users/:username/follow` resolves the
target by username (404 with `User <name> not found` when absent),
answers 404 with `Already not following this user` when no follow edge
from the caller to the target exists, and otherwise deletes the edge and
returns 200 with the endpoints of the edge. -/
def unfollowUser (callerId : Nat) (username : String) (db : DB) : FollowResponse :=
  match db.users.find? (fun u => u.username == username) with
  | none => ⟨404, some ("User \x27" ++ username ++ "\x27 not found"), none, none, db⟩
  | some target =>
    if (⟨callerId, target.id⟩ : FollowEdge) ∈ db.followers then
      ⟨200, none, some callerId, some target.id,
        { db with followers :=
            db.followers.filter (fun e => e != ⟨callerId, target.id⟩) }⟩
    else
      ⟨404, some "Already not following this user", none, none, db⟩

/-- Response shape of `GET /users`. -/
structure UsersResponse where
  status : Nat
  usernames : List String
  deriving DecidableEq, Repr

/-- Modelled from the spec: `GET /users` returns 200 with the handles of
all registered users except that of the authenticated caller. -/
def getUsers (callerId : Nat) (db : DB) : UsersResponse :=
  ⟨200, (db.users.filter (fun u => u.id != callerId)).map (fun u => u.username)⟩

/-- One entry of the `GET /users/:username/activity` response. -/
structure Activity where
  postID : Nat
  timestamp : Nat
  activity : String
  deriving DecidableEq, Repr

/-- Modelled from the spec: the activity endpoint unions the posts
authored by the user with the likes and shares of the user, tagging each
entry with `POSTED`, `LIKED`,
or `SHARED` and the event timestamp, before sorting latest-first. -/
def userActivityRaw (uid : Nat) (db : DB) : List Activity :=
  (db.posts.filter (fun p => p.author == uid)).map
      (fun p => ⟨p.id, p.createdAt, "POSTED"⟩)
    ++ (db.likedPost.filter (fun l => l.userId == uid)).map
      (fun l => ⟨l.postId, l.createdAt, "LIKED"⟩)
    ++ (db.sharedPost.filter (fun s => s.userId == uid)).map
      (fun s => ⟨s.postId, s.createdAt, "SHARED"⟩)

/-- Modelled from the spec: `GET /users/:username/activity` returns the
tagged union of the posts, likes and shares of the user, sorted by event
timestamp descending. -/
def getUserActivity (uid : Nat) (db : DB) : List Activity :=
  sortByTimestampDesc Activity.timestamp (userActivityRaw uid db)

/-- One entry of the `GET /notifications` response. `fromUser` embeds the
source field named from, which is a reserved word in Lean. -/
structure Notification where
  type : String
  timestamp : Nat
  fromUser : String
  post : Nat
  content : Option String
  deriving DecidableEq, Repr

/-- Modelled from the spec: resolve a user id to the stored handle. -/
def usernameOf (db : DB) (uid : Nat) : String :=
  match db.users.find? (fun u => u.id == uid) with
  | some u => u.username
  | none => ""

/-- Modelled from the spec: a post counts as a reply notification when
its `parent` points at a post id of the caller. -/
def parentIn (myPostIds : List Nat) (p : Post) : Bool :=
  match p.parent with
  | some pid => myPostIds.contains pid
  | none => false

/-- Modelled from the spec: the notifications endpoint aggregates the
interactions on posts authored by the caller — replies (posts whose
parent is a post of the caller), likes, and shares — tagging each with
`reply`, `like` or `share`, the handle of the acting user, the post id and
the event timestamp; `content` carries the reply text and is `null` for
likes and shares. -/
def notificationsRaw (callerId : Nat) (db : DB) : List Notification :=
  let myPostIds := (db.posts.filter (fun p => p.author == callerId)).map (fun p => p.id)
  ((db.posts.filter (fun p => parentIn myPostIds p)).map
      (fun p => ⟨"reply", p.createdAt, usernameOf db p.author, p.id, some p.text_content⟩))
    ++ ((db.likedPost.filter (fun l => myPostIds.contains l.postId)).map
      (fun l => ⟨"like", l.createdAt, usernameOf db l.userId, l.postId, none⟩))
    ++ ((db.sharedPost.filter (fun s => myPostIds.contains s.postId)).map
      (fun s => ⟨"share", s.createdAt, usernameOf db s.userId, s.postId, none⟩))

/-- Modelled from the spec: `GET /notifications` returns the tagged
interactions on the posts of the caller, sorted by timestamp descending. -/
def getNotifications (callerId : Nat) (db : DB) : List Notification :=
  sortByTimestampDesc Notification.timestamp (notificationsRaw callerId db)

/-! ### Helper lemmas on unique-key lookups -/

theorem find?_key_eq_some {α β : Type} [BEq β] [LawfulBEq β] (key : α → β) (u : α) :
    ∀ l : List α, u ∈ l → l.Pairwise (fun a b => key a ≠ key b) →
      l.find? (fun x => key x == key u) = some u
  | [], hu, _ => absurd hu (List.not_mem_nil u)
  | h :: t, hu, hp => by
    rcases List.mem_cons.mp hu with rfl | hut
    · exact List.find?_cons_of_pos t (by simp)
    · have hne : key h ≠ key u := (List.pairwise_cons.mp hp).1 u hut
      rw [List.find?_cons_of_neg t (by simpa using hne)]
      exact find?_key_eq_some key u t hut (List.pairwise_cons.mp hp).2

theorem key_eq_of_pairwise {α β : Type} (key : α → β) :
    ∀ {l : List α}, l.Pairwise (fun a b => key a ≠ key b) →
      ∀ {a b : α}, a ∈ l → b ∈ l → key a = key b → a = b
  | [], _, a, _, ha, _, _ => absurd ha (List.not_mem_nil a)
  | h :: t, hp, a, b, ha, hb, hk => by
    rcases List.mem_cons.mp ha with rfl | hat
    · rcases List.mem_cons.mp hb with rfl | hbt
      · rfl
      · exact absurd hk ((List.pairwise_cons.mp hp).1 b hbt)
    · rcases List.mem_cons.mp hb with rfl | hbt
      · exact absurd hk.symm ((List.pairwise_cons.mp hp).1 a hat)
      · exact key_eq_of_pairwise key (List.pairwise_cons.mp hp).2 hat hbt hk

theorem length_filter_key_ne {α β : Type} [BEq β] [LawfulBEq β] (key : α → β) (a : α) :
    ∀ l : List α, a ∈ l → l.Pairwise (fun x y => key x ≠ key y) →
      (l.filter (fun x => key x != key a)).length = l.length - 1
  | h :: t, hu, hp => by
    rcases List.mem_cons.mp hu with rfl | hut
    · have hall : ∀ x ∈ t, (fun x => key x != key a) x = true := by
        intro x hx
        exact bne_iff_ne.mpr fun he => (List.pairwise_cons.mp hp).1 x hx he.symm
      have hhead : (key a != key a) = false := by simp
      simp only [List.filter_cons, hhead, List.filter_eq_self.mpr hall]
      simp
    · have hhead : (key h != key a) = true :=
        bne_iff_ne.mpr ((List.pairwise_cons.mp hp).1 a hut)
      have hlen : 1 ≤ t.length := List.length_pos.mpr (List.ne_nil_of_mem hut)
      have ih := length_filter_key_ne key a t hut (List.pairwise_cons.mp hp).2
      simp only [List.filter_cons, hhead, if_pos, List.length_cons]
      simp only [List.length_cons, ih]
      omega

/-! ### Concrete sample states used by witnesses -/

/-- Sample registered user. -/
def sampleUser : User := createUser 1 "alice" "alice@example.com" "pw"

/-- Sample second user (a follow target). -/
def sampleUser2 : User := createUser 2 "bob" "bob@example.com" "pw2"

/-- Sample third user. -/
def sampleUser3 : User := createUser 3 "carol" "carol@example.com" "pw3"

/-- Database with one registered user. -/
def sampleDB : DB := ⟨[sampleUser], [], [], [], []⟩

/-- Database with two users where alice (id 1) already follows bob (id 2). -/
def sampleDB2 : DB := ⟨[sampleUser, sampleUser2], [], [⟨1, 2⟩], [], []⟩

/-- Database with two users and no follow edges. -/
def sampleDB3 : DB := ⟨[sampleUser, sampleUser2], [], [], [], []⟩

/-- Database with three users and no follow edges. -/
def sampleDB4 : DB := ⟨[sampleUser, sampleUser2, sampleUser3], [], [], [], []⟩

/-! ### Claim theorems -/

/-- C10: in the frontend `AuthProvider`, the `isAuthenticated` flag
exposed through the auth context equals `user.token === undefined`:
after a login that stores a defined token it is `false`, and after
logout it is `true` — inverted relative to whether a token is held. -/
theorem authProvider_isAuthenticated_inverted :
    (∀ user : AuthUser, isAuthenticated user = (user.token == JSValue.undefined)) ∧
    (∀ token username : String, isAuthenticated (login token username) = false) ∧
    isAuthenticated logout = true :=
  ⟨fun _ => rfl, fun _ _ => by simp [isAuthenticated, login], rfl⟩

/-- C8: the password stored for a created user never equals the
plaintext supplied at signup, and `validatePassword` returns `true`
exactly on the original plaintext. -/
theorem storedPassword_never_plaintext (id : Nat) (username email plaintext : String) :
    (createUser id username email plaintext).password ≠ plaintext ∧
    ∀ q : String,
      validatePassword (createUser id username email plaintext) q = true ↔ q = plaintext := by
  refine ⟨hashPassword_ne plaintext, fun q => ?_⟩
  have hv : validatePassword (createUser id username email plaintext) q
      = (hashPassword plaintext == hashPassword q) := rfl
  rw [hv, beq_iff_eq]
  exact ⟨fun h => (hashPassword_injective h).symm, fun h => by rw [h]⟩

/-- C1: logging in via `POST /users/authenticate` with the email and
correct password of a registered user returns 200 and a token that
`Authentication.extractUser` decodes to the id of that user; a wrong password
or a wrong email both return 401 with the identical message
`Incorrect email or password`. -/
theorem authenticate_spec (db : DB) (u : User) (p : String)
    (hu : u ∈ db.users)
    (huniq : db.users.Pairwise (fun a b => a.email ≠ b.email))
    (hpw : u.password = hashPassword p) :
    (authenticate u.email p db).status = 200 ∧
    (∃ t, (authenticate u.email p db).authToken = some t ∧ extractUser t = u.id) ∧
    (∀ q, q ≠ p →
      authenticate u.email q db = ⟨401, some "Incorrect email or password", none, none⟩) ∧
    (∀ e, (∀ v ∈ db.users, v.email ≠ e) →
      authenticate e p db = ⟨401, some "Incorrect email or password", none, none⟩) := by
  have hfind : db.users.find? (fun v => v.email == u.email) = some u :=
    find?_key_eq_some User.email u db.users hu huniq
  have hval : validatePassword u p = true := by
    simp [validatePassword, hpw]
  refine ⟨?_, ?_, ?_, ?_⟩
  · simp [authenticate, hfind, hval]
  · exact ⟨generateAuthToken u, by simp [authenticate, hfind, hval], rfl⟩
  · intro q hq
    have hne : hashPassword p ≠ hashPassword q :=
      fun h => hq (hashPassword_injective h).symm
    have hv : validatePassword u q = false := by
      rw [validatePassword, hpw]
      exact beq_eq_false_iff_ne.mpr hne
    simp [authenticate, hfind, hv]
  · intro e he
    have hnone : db.users.find? (fun v => v.email == e) = none :=
      List.find?_eq_none.mpr fun v hv => by simpa using he v hv
    simp [authenticate, hnone]

/-- Witness for C1 at a concrete one-user database. -/
theorem authenticate_spec_witness :
    (authenticate sampleUser.email "pw" sampleDB).status = 200 ∧
    (∃ t, (authenticate sampleUser.email "pw" sampleDB).authToken = some t ∧
      extractUser t = sampleUser.id) ∧
    (∀ q, q ≠ "pw" →
      authenticate sampleUser.email q sampleDB =
        ⟨401, some "Incorrect email or password", none, none⟩) ∧
    (∀ e, (∀ v ∈ sampleDB.users, v.email ≠ e) →
      authenticate e "pw" sampleDB =
        ⟨401, some "Incorrect email or password", none, none⟩) :=
  authenticate_spec sampleDB sampleUser "pw"
    (by simp [sampleDB]) (by simp [sampleDB]) rfl

/-- C3: when a follow edge from the caller to the target already exists,
a second `POST /users/:username/follow` returns 409 with
`Already following this user` and the whole database state — in
particular the set of follow edges — is unchanged. -/
theorem followUser_duplicate (db : DB) (callerId : Nat) (target : User)
    (ht : target ∈ db.users)
    (huniq : db.users.Pairwise (fun a b => a.username ≠ b.username))
    (hedge : (⟨callerId, target.id⟩ : FollowEdge) ∈ db.followers) :
    followUser callerId target.username db =
      ⟨409, some "Already following this user", none, none, db⟩ := by
  have hfind : db.users.find? (fun v => v.username == target.username) = some target :=
    find?_key_eq_some User.username target db.users ht huniq
  simp [followUser, hfind, hedge]

/-- Witness for C3: alice (id 1) already follows bob in `sampleDB2`. -/
theorem followUser_duplicate_witness :
    followUser 1 sampleUser2.username sampleDB2 =
      ⟨409, some "Already following this user", none, none, sampleDB2⟩ :=
  followUser_duplicate sampleDB2 1 sampleUser2
    (by simp [sampleDB2]) (by simp [sampleDB2, sampleUser, sampleUser2, createUser])
    (by simp [sampleDB2, sampleUser2, createUser])

/-- Counterexample to C4 as stated: with alice (id 1) not following bob,
`DELETE /users/bob/follow` answers 404, not 409. -/
theorem unfollowUser_notFollowing_counterexample :
    (unfollowUser 1 sampleUser2.username sampleDB3).status = 404 ∧
    (unfollowUser 1 sampleUser2.username sampleDB3).status ≠ 409 := by
  constructor <;> decide

/-- C4 (amended): unfollowing a user the caller does not follow returns
status 404 (not 409) with `Already not following this user`, leaving the
database unchanged. -/
theorem unfollowUser_notFollowing_amended (db : DB) (callerId : Nat) (target : User)
    (ht : target ∈ db.users)
    (huniq : db.users.Pairwise (fun a b => a.username ≠ b.username))
    (hnoedge : (⟨callerId, target.id⟩ : FollowEdge) ∉ db.followers) :
    unfollowUser callerId target.username db =
      ⟨404, some "Already not following this user", none, none, db⟩ := by
  have hfind : db.users.find? (fun v => v.username == target.username) = some target :=
    find?_key_eq_some User.username target db.users ht huniq
  simp [unfollowUser, hfind, hnoedge]

/-- Witness for the amended C4: alice (id 1) does not follow bob in
`sampleDB3`. -/
theorem unfollowUser_notFollowing_amended_witness :
    unfollowUser 1 sampleUser2.username sampleDB3 =
      ⟨404, some "Already not following this user", none, none, sampleDB3⟩ :=
  unfollowUser_notFollowing_amended sampleDB3 1 sampleUser2
    (by simp [sampleDB3]) (by simp [sampleDB3, sampleUser, sampleUser2, createUser])
    (by simp [sampleDB3])

/-- C5: unfollowing a user the caller does not follow answers with
status 404 and the error message `Already not following this user`. -/
theorem unfollowUser_notFollowing_status (db : DB) (callerId : Nat) (target : User)
    (ht : target ∈ db.users)
    (huniq : db.users.Pairwise (fun a b => a.username ≠ b.username))
    (hnoedge : (⟨callerId, target.id⟩ : FollowEdge) ∉ db.followers) :
    (unfollowUser callerId target.username db).status = 404 ∧
    (unfollowUser callerId target.username db).error =
      some "Already not following this user" := by
  have hfind : db.users.find? (fun v => v.username == target.username) = some target :=
    find?_key_eq_some User.username target db.users ht huniq
  constructor <;> simp [unfollowUser, hfind, hnoedge]

/-- Witness for C5: bob (id 2) does not follow alice in `sampleDB3`. -/
theorem unfollowUser_notFollowing_status_witness :
    (unfollowUser 2 sampleUser.username sampleDB3).status = 404 ∧
    (unfollowUser 2 sampleUser.username sampleDB3).error =
      some "Already not following this user" :=
  unfollowUser_notFollowing_status sampleDB3 2 sampleUser
    (by simp [sampleDB3]) (by simp [sampleDB3, sampleUser, sampleUser2, createUser])
    (by simp [sampleDB3])

/-- C6: a request to a protected route whose `Authorization` header
carries no valid bearer token is rejected with status 400 before the
handler runs: no response body is produced and the database state is
returned unchanged, whatever the handler would have done. -/
theorem withAuth_rejects_unauthenticated {ρ : Type}
    (handler : Nat → DB → Nat × Option ρ × DB) (hdr : AuthHeader) (db : DB)
    (h : extractUserId hdr = none) :
    withAuth handler hdr db = (400, none, db) := by
  simp [withAuth, h]

/-- Witness for C6: a missing header short-circuits a handler that would
have mutated the follower table. -/
theorem withAuth_rejects_unauthenticated_witness :
    extractUserId AuthHeader.missing = none ∧
    withAuth (fun uid db => (201, some uid, { db with followers := [] }))
      AuthHeader.missing sampleDB2 = (400, none, sampleDB2) :=
  ⟨rfl, withAuth_rejects_unauthenticated
    (fun uid db => (201, some uid, { db with followers := [] }))
    AuthHeader.missing sampleDB2 rfl⟩

theorem mem_userActivityRaw (uid : Nat) (db : DB) (e : Activity) :
    e ∈ userActivityRaw uid db ↔
      ((∃ p ∈ db.posts, p.author = uid ∧ e = ⟨p.id, p.createdAt, "POSTED"⟩) ∨
       (∃ l ∈ db.likedPost, l.userId = uid ∧ e = ⟨l.postId, l.createdAt, "LIKED"⟩) ∨
       (∃ s ∈ db.sharedPost, s.userId = uid ∧ e = ⟨s.postId, s.createdAt, "SHARED"⟩)) := by
  simp only [userActivityRaw, List.mem_append, List.mem_map, List.mem_filter, beq_iff_eq]
  constructor
  · rintro ((⟨p, ⟨hp, ha⟩, rfl⟩ | ⟨l, ⟨hl, ha⟩, rfl⟩) | ⟨s, ⟨hs, ha⟩, rfl⟩)
    · exact Or.inl ⟨p, hp, ha, rfl⟩
    · exact Or.inr (Or.inl ⟨l, hl, ha, rfl⟩)
    · exact Or.inr (Or.inr ⟨s, hs, ha, rfl⟩)
  · rintro (⟨p, hp, ha, rfl⟩ | ⟨l, hl, ha, rfl⟩ | ⟨s, hs, ha, rfl⟩)
    · exact Or.inl (Or.inl ⟨p, ⟨hp, ha⟩, rfl⟩)
    · exact Or.inl (Or.inr ⟨l, ⟨hl, ha⟩, rfl⟩)
    · exact Or.inr ⟨s, ⟨hs, ha⟩, rfl⟩

/-- C2: `GET /users/:username/activity` returns exactly the union of the
posts authored by the user with the likes and shares of the user — each
entry tagged `POSTED`, `LIKED` or
`SHARED` and carrying the post id and event timestamp — sorted by event
timestamp in descending order (latest first). -/
theorem getUserActivity_spec (uid : Nat) (db : DB) :
    List.Sorted (laterFirst Activity.timestamp) (getUserActivity uid db) ∧
    ∀ e : Activity, e ∈ getUserActivity uid db ↔
      ((∃ p ∈ db.posts, p.author = uid ∧ e = ⟨p.id, p.createdAt, "POSTED"⟩) ∨
       (∃ l ∈ db.likedPost, l.userId = uid ∧ e = ⟨l.postId, l.createdAt, "LIKED"⟩) ∨
       (∃ s ∈ db.sharedPost, s.userId = uid ∧ e = ⟨s.postId, s.createdAt, "SHARED"⟩)) := by
  refine ⟨sortByTimestampDesc_sorted _ _, fun e => ?_⟩
  rw [getUserActivity, mem_sortByTimestampDesc]
  exact mem_userActivityRaw uid db e

theorem parentIn_iff (ids : List Nat) (p : Post) :
    parentIn ids p = true ↔ ∃ pid, p.parent = some pid ∧ pid ∈ ids := by
  cases hp : p.parent <;> simp [parentIn, hp]

theorem mem_myPostIds (callerId : Nat) (db : DB) (pid : Nat) :
    pid ∈ (db.posts.filter (fun p => p.author == callerId)).map (fun p => p.id) ↔
      ∃ q ∈ db.posts, q.author = callerId ∧ q.id = pid := by
  simp only [List.mem_map, List.mem_filter, beq_iff_eq]
  constructor
  · rintro ⟨q, ⟨hq, ha⟩, rfl⟩
    exact ⟨q, hq, ha, rfl⟩
  · rintro ⟨q, hq, ha, rfl⟩
    exact ⟨q, ⟨hq, ha⟩, rfl⟩

theorem mem_notificationsRaw (callerId : Nat) (db : DB) (e : Notification) :
    e ∈ notificationsRaw callerId db ↔
      ((∃ p ∈ db.posts, (∃ q ∈ db.posts, q.author = callerId ∧ p.parent = some q.id) ∧
          e = ⟨"reply", p.createdAt, usernameOf db p.author, p.id, some p.text_content⟩) ∨
       (∃ l ∈ db.likedPost, (∃ q ∈ db.posts, q.author = callerId ∧ q.id = l.postId) ∧
          e = ⟨"like", l.createdAt, usernameOf db l.userId, l.postId, none⟩) ∨
       (∃ s ∈ db.sharedPost, (∃ q ∈ db.posts, q.author = callerId ∧ q.id = s.postId) ∧
          e = ⟨"share", s.createdAt, usernameOf db s.userId, s.postId, none⟩)) := by
  simp only [notificationsRaw, List.mem_append, List.mem_map, List.mem_filter]
  constructor
  · rintro ((⟨p, ⟨hp, hc⟩, rfl⟩ | ⟨l, ⟨hl, hc⟩, rfl⟩) | ⟨s, ⟨hs, hc⟩, rfl⟩)
    · obtain ⟨pid, hpar, hin⟩ := (parentIn_iff _ p).mp hc
      obtain ⟨q, hq, ha, rfl⟩ := (mem_myPostIds callerId db pid).mp hin
      exact Or.inl ⟨p, hp, ⟨q, hq, ha, hpar⟩, rfl⟩
    · have hin := (mem_myPostIds callerId db l.postId).mp (by simpa using hc)
      exact Or.inr (Or.inl ⟨l, hl, hin, rfl⟩)
    · have hin := (mem_myPostIds callerId db s.postId).mp (by simpa using hc)
      exact Or.inr (Or.inr ⟨s, hs, hin, rfl⟩)
  · rintro (⟨p, hp, ⟨q, hq, ha, hpar⟩, rfl⟩ | ⟨l, hl, hin, rfl⟩ | ⟨s, hs, hin, rfl⟩)
    · refine Or.inl (Or.inl ⟨p, ⟨hp, ?_⟩, rfl⟩)
      exact (parentIn_iff _ p).mpr
        ⟨q.id, hpar, (mem_myPostIds callerId db q.id).mpr ⟨q, hq, ha, rfl⟩⟩
    · refine Or.inl (Or.inr ⟨l, ⟨hl, ?_⟩, rfl⟩)
      simpa using (mem_myPostIds callerId db l.postId).mpr hin
    · refine Or.inr ⟨s, ⟨hs, ?_⟩, rfl⟩
      simpa using (mem_myPostIds callerId db s.postId).mpr hin

/-- C7: `GET /notifications` returns exactly the interactions on posts
authored by the caller — replies, likes and shares, tagged `reply`,
`like` or `share` and carrying the handle of the acting user, the post id and
the event timestamp — sorted by timestamp descending, and the `content`
field is populated only for replies (it is `null` for likes and
shares). -/
theorem getNotifications_spec (callerId : Nat) (db : DB) :
    List.Sorted (laterFirst Notification.timestamp) (getNotifications callerId db) ∧
    (∀ e : Notification, e ∈ getNotifications callerId db ↔
      ((∃ p ∈ db.posts, (∃ q ∈ db.posts, q.author = callerId ∧ p.parent = some q.id) ∧
          e = ⟨"reply", p.createdAt, usernameOf db p.author, p.id, some p.text_content⟩) ∨
       (∃ l ∈ db.likedPost, (∃ q ∈ db.posts, q.author = callerId ∧ q.id = l.postId) ∧
          e = ⟨"like", l.createdAt, usernameOf db l.userId, l.postId, none⟩) ∨
       (∃ s ∈ db.sharedPost, (∃ q ∈ db.posts, q.author = callerId ∧ q.id = s.postId) ∧
          e = ⟨"share", s.createdAt, usernameOf db s.userId, s.postId, none⟩))) ∧
    ∀ e ∈ getNotifications callerId db,
      (e.type = "reply" ∨ e.type = "like" ∨ e.type = "share") ∧
      (e.content = none ↔ e.type ≠ "reply") := by
  have hmem : ∀ e : Notification, e ∈ getNotifications callerId db ↔
      e ∈ notificationsRaw callerId db :=
    fun e => mem_sortByTimestampDesc Notification.timestamp _ e
  refine ⟨sortByTimestampDesc_sorted _ _,
    fun e => (hmem e).trans (mem_notificationsRaw callerId db e), fun e he => ?_⟩
  rcases (mem_notificationsRaw callerId db e).mp ((hmem e).mp he) with
    ⟨p, _, _, rfl⟩ | ⟨l, _, _, rfl⟩ | ⟨s, _, _, rfl⟩ <;> simp

/-- C9: for an authenticated caller, `GET /users` returns status 200 and
the list of all registered handles except that of the caller: with `n`
users registered it holds exactly `n - 1` usernames, the handle of the
caller is not among them, and the handle of every other user is. -/
theorem getUsers_excludes_caller (db : DB) (caller : User)
    (hc : caller ∈ db.users)
    (hid : db.users.Pairwise (fun a b => a.id ≠ b.id))
    (hname : db.users.Pairwise (fun a b => a.username ≠ b.username)) :
    (getUsers caller.id db).status = 200 ∧
    (getUsers caller.id db).usernames.length = db.users.length - 1 ∧
    caller.username ∉ (getUsers caller.id db).usernames ∧
    ∀ u ∈ db.users, u.id ≠ caller.id →
      u.username ∈ (getUsers caller.id db).usernames := by
  refine ⟨rfl, ?_, ?_, ?_⟩
  · simpa [getUsers, List.length_map] using
      length_filter_key_ne User.id caller db.users hc hid
  · intro hmem
    simp only [getUsers, List.mem_map, List.mem_filter] at hmem
    obtain ⟨u, ⟨hu, hne⟩, heq⟩ := hmem
    have : u = caller := key_eq_of_pairwise User.username hname hu hc heq
    subst this
    exact absurd rfl (bne_iff_ne.mp hne)
  · intro u hu hne
    simp only [getUsers, List.mem_map, List.mem_filter]
    exact ⟨u, ⟨hu, bne_iff_ne.mpr hne⟩, rfl⟩

/-- Witness for C9: alice calls `GET /users` against the three-user
database and receives the two other handles. -/
theorem getUsers_excludes_caller_witness :
    (getUsers sampleUser.id sampleDB4).status = 200 ∧
    (getUsers sampleUser.id sampleDB4).usernames.length = sampleDB4.users.length - 1 ∧
    sampleUser.username ∉ (getUsers sampleUser.id sampleDB4).usernames ∧
    ∀ u ∈ sampleDB4.users, u.id ≠ sampleUser.id →
      u.username ∈ (getUsers sampleUser.id sampleDB4).usernames :=
  getUsers_excludes_caller sampleDB4 sampleUser
    (by simp [sampleDB4])
    (by simp [sampleDB4, sampleUser, sampleUser2, sampleUser3, createUser])
    (by simp [sampleDB4, sampleUser, sampleUser2, sampleUser3, createUser])

end Updog
